import Mathlib

/-!
Verification of `jit_kernel_emitter.cpp` (OpenVINO intel_cpu snippets x64 backend).

The definitions below are a shallow embedding of the C++ source:
  * the stride / offset computation of `jit_kernel_emitter::init_data_pointers`
    (the `offset_calculation` lambda, lines 152-185),
  * the layout-based stride reordering (lines 169-177),
  * the register-pool setup of the constructor (lines 79-128),
  * the argument validation of `validate_arguments` (lines 137-144),
  * the pointer-initialization register choreography of
    `init_data_pointers` (lines 200-232).

Machine integers (`size_t`) are modelled as `Nat` with explicit reduction
modulo `2^64` where the C++ arithmetic can wrap.  Out-of-bounds accesses and
`size_t` underflows that feed container sizes (undefined behaviour or a
thrown `length_error` in C++) are modelled by `Option`: `none` means the C++
computation does not produce a value.
-/

namespace JitKernelEmitter

/-- The modulus of `size_t` arithmetic on x64, that is `2^64`. -/
def U64 : Nat := 18446744073709551616

/-- Unsigned `size_t` subtraction `a - b` (wraps modulo `2^64`). -/
def subUSize (a b : Nat) : Nat := (U64 + a - b) % U64

theorem U64_pos : 0 < U64 := by decide

/-- In-range `size_t` subtraction agrees with `Nat` subtraction. -/
theorem subUSize_of_le (a b : Nat) (hba : b ≤ a) (ha : a - b < U64) :
    subUSize a b = a - b := by
  unfold subUSize
  rw [Nat.add_sub_assoc hba, Nat.add_mod_left, Nat.mod_eq_of_lt ha]

/-- Subtracting one more than the minuend underflows to `2^64 - 1`. -/
theorem subUSize_pred (a : Nat) : subUSize a (a + 1) = U64 - 1 := by
  unfold subUSize
  have h : U64 + a - (a + 1) = U64 - 1 := by omega
  rw [h, Nat.mod_eq_of_lt (Nat.sub_lt U64_pos Nat.zero_lt_one)]

/-!
### Raw stride computation

C++ (`offset_calculation`, lines 161-167):
```
std::vector<size_t> strides(shape.size());
size_t dim_step = 1;
strides[shape.size() - 1] = 1;
for (int k = shape.size() - 2; k >= 0; k--) {
    dim_step *= shape[k+1];
    strides[k] = shape[k] != 1 ? dim_step * data_size : 0;
}
```
-/

/-- One pass of the stride loop: `stridesGo shape e dim_step strides j`
processes indices `j-1, j-2, ..., 0` exactly as the C++ `for` loop does
(the counter `j` is the number of indices still to be written). -/
def stridesGo (shape : List Nat) (e : Nat) : Nat → List Nat → Nat → List Nat
  | _, strides, 0 => strides
  | dim_step, strides, j + 1 =>
      let ds := dim_step * shape.getD (j + 1) 0 % U64
      stridesGo shape e ds
        (strides.set j (if shape.getD j 0 ≠ 1 then ds * e % U64 else 0)) j

/-- Raw byte strides of `offset_calculation` before layout reordering.
`none` models the out-of-bounds write `strides[shape.size() - 1]` that the
C++ performs when the shape is empty (`size_t` underflow of the index). -/
def rawStrides (shape : List Nat) (e : Nat) : Option (List Nat) :=
  match shape with
  | [] => none
  | _ =>
      some (stridesGo shape e 1
        ((List.replicate shape.length 0).set (shape.length - 1) 1)
        (shape.length - 1))

/-- The product of the suffix `shape[m], ..., shape[n-1]` accumulated right
to left modulo `2^64`, exactly the order in which the C++ `dim_step`
accumulator multiplies the extents.  The accumulator value used when the
loop writes `strides[k]` is `dimStep shape (k+1)`. -/
def dimStep (shape : List Nat) (m : Nat) : Nat :=
  ((shape.drop m).reverse).foldl (fun a b => a * b % U64) 1

-- Sanity checks against the comment in the C++ source (case 1 / case 2).
example : rawStrides [2, 3, 4] 4 = some [48, 16, 1] := rfl
example : rawStrides [5, 1, 7] 8 = some [56, 0, 1] := rfl
example : rawStrides [2, 1] 4 = some [4, 1] := rfl

/-!
### Layout-based stride reordering

C++ (`offset_calculation`, lines 169-177):
```
if (!layout.empty()) {
    std::vector<size_t> reordered_strides(strides.size());
    for (size_t i = 0; i < layout.size(); i++) {
        const auto& src_idx = is_input ? layout[i] : i;
        const auto& dst_idx = is_input ? i : layout[i];
        reordered_strides[dst_idx] = strides[src_idx];
    }
    strides = std::move(reordered_strides);
}
```
-/

/-- Sequence of in-place writes `acc[d] := v`, mirroring the C++ loop body
`reordered_strides[dst_idx] = strides[src_idx]` executed left to right. -/
def applyWrites (init : List Nat) : List (Nat × Nat) → List Nat
  | [] => init
  | (d, v) :: ws => applyWrites (init.set d v) ws

/-- The write performed at loop iteration `i` (destination index, value). -/
def reorderWrite (strides layout : List Nat) (isInput : Bool) (i : Nat) : Nat × Nat :=
  (if isInput then i else layout.getD i 0,
   strides.getD (if isInput then layout.getD i 0 else i) 0)

/-- Stride reordering through the layout permutation (lines 169-177).  When
the layout is empty the strides are left untouched, as in the source. -/
def reorderStrides (strides layout : List Nat) (isInput : Bool) : List Nat :=
  if layout.isEmpty then strides
  else applyWrites (List.replicate strides.length 0)
    ((List.range layout.length).map (reorderWrite strides layout isInput))

example : reorderStrides [10, 20, 30] [1, 2, 0] true = [20, 30, 10] := rfl
example : reorderStrides [10, 20, 30] [1, 2, 0] false = [30, 10, 20] := rfl
example : reorderStrides [10, 20, 30] [] true = [10, 20, 30] := rfl

/-!
### The full `offset_calculation` lambda (lines 152-185)

After reordering, the innermost stride is dropped (`strides.pop_back()`) and
the vector is left-padded with zeros:
`strides.insert(strides.begin(), offset_rank - strides.size(), 0)`.
The insertion count is a `size_t` difference: when the tensor's own rank
exceeds `offset_rank + 1` it underflows to an astronomically large count and
`std::vector::insert` throws; this failure is modelled by `none`.
-/

/-- The `offset_calculation` lambda of `init_data_pointers`:
raw strides, layout reorder, drop the innermost entry, left-pad with zeros
to length `offset_rank`. -/
def offset_calculation (offset_rank : Nat) (shape layout : List Nat)
    (data_size : Nat) (isInput : Bool) : Option (List Nat) :=
  match rawStrides shape data_size with
  | none => none
  | some strides0 =>
      let strides1 := (reorderStrides strides0 layout isInput).dropLast
      if strides1.length ≤ offset_rank then
        some (List.replicate (offset_rank - strides1.length) 0 ++ strides1)
      else none

example : offset_calculation 5 [2, 3, 4] [] 4 true = some [0, 0, 0, 48, 16] := rfl
example : offset_calculation 2 [5, 1, 7] [] 8 true = some [56, 0] := rfl

/-!
### Descriptor validation in the constructor (lines 68-76)

C++:
```
OV_CPU_JIT_EMITTER_ASSERT(shape.size() == layout.size(), ...);
const auto max_dim = *std::max_element(layout.begin(), layout.end());
OV_CPU_JIT_EMITTER_ASSERT(max_dim < shape.size(), ...);
```
`std::max_element` on an empty range returns the end iterator, and the
dereference is undefined behaviour; this is modelled by `Option`.
-/

/-- The value `*std::max_element(l.begin(), l.end())`; `none` for the empty range,
whose end-iterator dereference is undefined. -/
def maxElement (l : List Nat) : Option Nat :=
  match l with
  | [] => none
  | x :: xs => some (xs.foldl max x)

/-- Outcome of the per-descriptor checks of the constructor. -/
inductive DescCheck where
  | ok
  | lengthMismatch
  | outOfRange
  | undefinedEmpty

/-- The constructor's shape/layout validation (lines 70-72). -/
def validateDescriptor (shape layout : List Nat) : DescCheck :=
  if shape.length ≠ layout.length then DescCheck.lengthMismatch
  else
    match maxElement layout with
    | none => DescCheck.undefinedEmpty
    | some m => if m < shape.length then DescCheck.ok else DescCheck.outOfRange

/-!
### `validate_arguments` (lines 137-144)

C++ checks, in order: `in.empty()`, `out.empty()`, then
`data_ptr_regs_idx.size() == num_inputs + num_outputs + num_unique_buffers`.
The first failing assertion throws; later checks are not reached.
-/

/-- The error raised by `validate_arguments`, if any. -/
inductive ValidateErr where
  | arity
  | alloc

/-- The checks of `jit_kernel_emitter::validate_arguments`: `none` means all pass
and `emit_code` proceeds to `emit_impl`. -/
def validate_arguments (inArgs outArgs : List Nat)
    (num_inputs num_outputs num_unique_buffers dataPtrRegsLen : Nat) :
    Option ValidateErr :=
  if ¬ inArgs.isEmpty then some ValidateErr.arity
  else if ¬ outArgs.isEmpty then some ValidateErr.arity
  else if dataPtrRegsLen ≠ num_inputs + num_outputs + num_unique_buffers then
    some ValidateErr.alloc
  else none

/-!
### Register pools and allocation (constructor, lines 79-128)

The pools are filled descending (`pool[i] = 15 - i`) and the four reserved
registers — `RSP = 4`, `RBP = 5`, `reg_indexes_idx` (`abi_param1`) and
`reg_const_params_idx` (`abi_param2`) — are erased, preserving the order of
the remaining elements.
-/

/-- The general-purpose pool after the constructor's
`remove_regs_from_pool` call (lines 79-94). -/
def initGpPool (ri rc : Nat) : List Nat :=
  ((List.range 16).map (fun i => 15 - i)).filter
    (fun x => ¬ (x = 4 ∨ x = 5 ∨ x = ri ∨ x = rc))

example : initGpPool 7 6 = [15, 14, 13, 12, 11, 10, 9, 8, 3, 2, 1, 0] := rfl

/-- Modelled from the spec: `map_abstract_registers` (defined in
`jit_container_emitter`, whose source is not part of this file set) assigns
each of `n` abstract registers a physical register, removing the last pool
element for each assignment (the pool is filled descending precisely so
that removing the last item maps ascending).  Returns the assigned
physicals in assignment order together with the depleted pool; `none` is
the register-exhaustion failure. -/
def allocRegs : Nat → List Nat → Option (List Nat × List Nat)
  | 0, pool => some ([], pool)
  | n + 1, pool =>
      match pool.getLast? with
      | none => none
      | some r =>
          match allocRegs n pool.dropLast with
          | none => none
          | some (assigned, pool2) => some (r :: assigned, pool2)

/-- Modelled from the spec: the register-allocation phase of the
`jit_kernel_emitter` constructor (lines 96-128).  Memory-access
registers (the future `data_ptr_regs_idx`) are allocated from the initial
pool; the two ABI registers are then pushed back into the pool and the
general expressions are allocated from the replenished pool.  Returns
(data-pointer registers, general registers, remaining pool). -/
def kernelConstructorRegs (ri rc : Nat) (numMemAccess numGeneral : Nat) :
    Option (List Nat × List Nat × List Nat) :=
  match allocRegs numMemAccess (initGpPool ri rc) with
  | none => none
  | some (dataPtrRegs, pool1) =>
      match allocRegs numGeneral (pool1 ++ [ri, rc]) with
      | none => none
      | some (genRegs, pool2) => some (dataPtrRegs, genRegs, pool2)

example : kernelConstructorRegs 7 6 2 1 = some ([0, 1], [6], [15, 14, 13, 12, 11, 10, 9, 8, 3, 2, 7]) := rfl

/-!
### Pointer initialization (`init_data_pointers`, lines 146-233)

The emitted instruction stream is abstracted to the register choreography
it encodes: for every data pointer, the destination register, the
parameter-block slot its base address is loaded from, and the scratch
register used for its offset accumulation.
-/

/-- The parameter-block slot a base pointer is loaded from. -/
inductive LoadSrc where
  | srcPtr (i : Nat)
  | dstPtr (i : Nat)
  | bufScratch

/-- One pointer initialization: destination register, load source, and the
scratch register used by `init_ptr_with_offset` (buffers get none). -/
structure PtrInit where
  dest : Nat
  src : LoadSrc
  scratch : Option Nat

/-- Placeholder `PtrInit` used as the default of `List.getD`. -/
def dummyPtrInit : PtrInit := ⟨0, LoadSrc.bufScratch, none⟩

/-- The body of `jit_kernel_emitter::init_data_pointers` (lines 146-233), abstracted to
the register choreography it emits.  `gpPool` is the (depleted)
`gp_regs_pool` searched for a spare corruptable register;
`dataPtrRegs` is `data_ptr_regs_idx` in order.  `none` models the
out-of-bounds register accesses the C++ performs when the starved path is
taken with `num_params = 0` (the loop bound `num_params - 1` underflows). -/
def init_data_pointers (gpPool : List Nat) (ri rc : Nat) (dataPtrRegs : List Nat)
    (num_inputs num_outputs num_unique_buffers : Nat) : Option (List PtrInit) :=
  let num_params := num_inputs + num_outputs
  let spare := gpPool.find? (fun r => r ≠ ri ∧ r ≠ rc)
  let lastIterExplicitly := spare.isNone
  let reg_tmp := match spare with
    | some r => r
    | none => dataPtrRegs.getD (num_params - 1) 0
  if lastIterExplicitly ∧ num_params = 0 then none
  else
    let bufInits := (List.range num_unique_buffers).map (fun i =>
      PtrInit.mk (dataPtrRegs.getD (num_params + i) 0) LoadSrc.bufScratch none)
    let mainCount := num_params - (if lastIterExplicitly then 1 else 0)
    let mainInits := (List.range mainCount).map (fun i =>
      PtrInit.mk (dataPtrRegs.getD i 0)
        (if i < num_inputs then LoadSrc.srcPtr i
         else LoadSrc.dstPtr (i - num_inputs))
        (some reg_tmp))
    let lastInits :=
      if lastIterExplicitly then
        [PtrInit.mk (dataPtrRegs.getD mainCount 0)
          (LoadSrc.dstPtr (subUSize mainCount num_inputs))
          (some rc)]
      else []
    some (bufInits ++ mainInits ++ lastInits)

example :
    init_data_pointers [15, 14] 7 6 [0, 1, 2] 1 1 1 =
      some [⟨2, LoadSrc.bufScratch, none⟩,
            ⟨0, LoadSrc.srcPtr 0, some 15⟩,
            ⟨1, LoadSrc.dstPtr 0, some 15⟩] := rfl

example :
    init_data_pointers [] 7 6 [0, 1, 2] 1 1 1 =
      some [⟨2, LoadSrc.bufScratch, none⟩,
            ⟨0, LoadSrc.srcPtr 0, some 1⟩,
            ⟨1, LoadSrc.dstPtr 0, some 6⟩] := rfl

/-!
### Characterization of the stride loop
-/

theorem getD_set_self (l : List Nat) (i v : Nat) (h : i < l.length) :
    (l.set i v).getD i 0 = v := by
  rw [List.getD_eq_getElem _ 0 (by simpa)]
  simp [h]

theorem getD_set_ne (l : List Nat) (i j v : Nat) (h : i ≠ j) :
    (l.set i v).getD j 0 = l.getD j 0 := by
  simp [List.getD, List.getElem?_set_ne h]

theorem stridesGo_length (shape : List Nat) (e : Nat) :
    ∀ (j ds : Nat) (s : List Nat), (stridesGo shape e ds s j).length = s.length := by
  intro j
  induction j with
  | zero => intro ds s; rfl
  | succ j ih => intro ds s; simp only [stridesGo]; rw [ih]; simp

theorem stridesGo_getD_ge (shape : List Nat) (e : Nat) :
    ∀ (j ds : Nat) (s : List Nat) (k : Nat), j ≤ k →
      (stridesGo shape e ds s j).getD k 0 = s.getD k 0 := by
  intro j
  induction j with
  | zero => intro ds s k _; rfl
  | succ j ih =>
      intro ds s k hk
      simp only [stridesGo]
      rw [ih _ _ _ (by omega)]
      exact getD_set_ne _ _ _ _ (by omega)

theorem dimStep_last (shape : List Nat) : dimStep shape shape.length = 1 := by
  simp [dimStep]

theorem dimStep_succ (shape : List Nat) (m : Nat) (h : m < shape.length) :
    dimStep shape m = dimStep shape (m + 1) * shape.getD m 0 % U64 := by
  unfold dimStep
  rw [List.getD_eq_getElem shape 0 h, List.drop_eq_getElem_cons h,
    List.reverse_cons, List.foldl_append]
  simp

theorem stridesGo_getD_lt (shape : List Nat) (e : Nat) :
    ∀ (j ds : Nat) (s : List Nat), ds = dimStep shape (j + 1) →
      j + 1 ≤ shape.length → j ≤ s.length →
      ∀ k, k < j →
        (stridesGo shape e ds s j).getD k 0 =
          if shape.getD k 0 ≠ 1 then dimStep shape (k + 1) * e % U64 else 0 := by
  intro j
  induction j with
  | zero => intro ds s _ _ _ k hk; exact absurd hk (by omega)
  | succ j ih =>
      intro ds s hds hj hs k hk
      subst hds
      simp only [stridesGo]
      have hds2 : dimStep shape (j + 1 + 1) * shape.getD (j + 1) 0 % U64 =
          dimStep shape (j + 1) := by
        rw [← dimStep_succ shape (j + 1) (by omega)]
      rw [hds2]
      by_cases hkj : k = j
      · subst hkj
        rw [stridesGo_getD_ge shape e k _ _ k (le_refl k)]
        exact getD_set_self _ _ _ (by omega)
      · exact ih _ _ rfl (by omega) (by rw [List.length_set]; omega) k (by omega)

theorem rawStrides_spec (shape : List Nat) (e : Nat) (h : shape ≠ []) :
    ∃ l, rawStrides shape e = some l ∧ l.length = shape.length ∧
      l.getD (shape.length - 1) 0 = 1 ∧
      ∀ k, k < shape.length - 1 →
        l.getD k 0 = if shape.getD k 0 ≠ 1 then dimStep shape (k + 1) * e % U64 else 0 := by
  cases shape with
  | nil => exact absurd rfl h
  | cons d rest =>
      refine ⟨_, rfl, ?_, ?_, ?_⟩
      · rw [stridesGo_length]; simp
      · rw [stridesGo_getD_ge (d :: rest) e _ _ _ _ (le_refl _)]
        exact getD_set_self _ _ _ (by simp)
      · intro k hk
        refine stridesGo_getD_lt (d :: rest) e _ _ _ ?_ (by simp) (by simp) k hk
        have h1 : (d :: rest).length - 1 + 1 = (d :: rest).length := by simp
        rw [h1, dimStep_last]

/-!
### Characterization of the reorder loop
-/

theorem applyWrites_length (ws : List (Nat × Nat)) :
    ∀ init : List Nat, (applyWrites init ws).length = init.length := by
  induction ws with
  | nil => intro init; rfl
  | cons w ws ih =>
      intro init
      obtain ⟨d, v⟩ := w
      rw [applyWrites, ih, List.length_set]

theorem applyWrites_getD_not_key (ws : List (Nat × Nat)) :
    ∀ (init : List Nat) (d : Nat), (∀ p ∈ ws, p.1 ≠ d) →
      (applyWrites init ws).getD d 0 = init.getD d 0 := by
  induction ws with
  | nil => intro init d _; rfl
  | cons w ws ih =>
      intro init d hkeys
      obtain ⟨d', v'⟩ := w
      rw [applyWrites, ih _ _ (fun p hp => hkeys p (List.mem_cons_of_mem _ hp))]
      exact getD_set_ne _ _ _ _ (hkeys (d', v') (List.mem_cons_self _ _))

theorem applyWrites_getD_key (ws : List (Nat × Nat)) :
    ∀ (init : List Nat) (d v : Nat), d < init.length → (d, v) ∈ ws →
      (∀ p ∈ ws, p.1 = d → p.2 = v) →
      (applyWrites init ws).getD d 0 = v := by
  induction ws with
  | nil => intro init d v _ hmem _; exact absurd hmem (List.not_mem_nil _)
  | cons w ws ih =>
      intro init d v hd hmem huniq
      obtain ⟨d', v'⟩ := w
      rw [applyWrites]
      by_cases hws : (d, v) ∈ ws
      · exact ih _ _ _ (by rw [List.length_set]; exact hd)
          hws (fun p hp => huniq p (List.mem_cons_of_mem _ hp))
      · have heq : (d, v) = (d', v') := by
          rcases List.mem_cons.mp hmem with h | h
          · exact h
          · exact absurd h hws
        have hkeys : ∀ p ∈ ws, p.1 ≠ d := by
          intro p hp hpd
          have hv : p.2 = v := huniq p (List.mem_cons_of_mem _ hp) hpd
          exact hws (by rw [← hpd, ← hv] at *; exact (Prod.mk.eta ▸ hp))
        rw [applyWrites_getD_not_key ws _ _ hkeys]
        obtain ⟨hd', hv'⟩ : d = d' ∧ v = v' := by simpa using heq
        subst hd'
        subst hv'
        exact getD_set_self _ _ _ hd

theorem reorderStrides_length (strides layout : List Nat) (b : Bool) :
    (reorderStrides strides layout b).length = strides.length := by
  unfold reorderStrides
  by_cases h : layout.isEmpty
  · rw [if_pos h]
  · rw [if_neg h, applyWrites_length, List.length_replicate]

theorem reorder_input_getD (strides layout : List Nat)
    (hne : layout ≠ []) (hlen : layout.length = strides.length)
    (i : Nat) (hi : i < layout.length) :
    (reorderStrides strides layout true).getD i 0 =
      strides.getD (layout.getD i 0) 0 := by
  unfold reorderStrides
  rw [if_neg (by simpa using hne)]
  refine applyWrites_getD_key _ _ _ _ ?_ ?_ ?_
  · rw [List.length_replicate]; omega
  · exact List.mem_map.mpr ⟨i, List.mem_range.mpr hi, by simp [reorderWrite]⟩
  · intro p hp hpd
    obtain ⟨j, hj, rfl⟩ := List.mem_map.mp hp
    have hji : j = i := by simpa [reorderWrite] using hpd
    subst hji
    simp [reorderWrite]

theorem reorder_output_getD (strides layout : List Nat)
    (hne : layout ≠ []) (hbound : ∀ x ∈ layout, x < strides.length)
    (hnd : layout.Nodup) (i : Nat) (hi : i < layout.length) :
    (reorderStrides strides layout false).getD (layout.getD i 0) 0 =
      strides.getD i 0 := by
  unfold reorderStrides
  rw [if_neg (by simpa using hne)]
  refine applyWrites_getD_key _ _ _ _ ?_ ?_ ?_
  · rw [List.length_replicate]
    refine hbound _ ?_
    rw [List.getD_eq_getElem layout 0 hi]
    exact List.getElem_mem hi
  · exact List.mem_map.mpr ⟨i, List.mem_range.mpr hi, by simp [reorderWrite]⟩
  · intro p hp hpd
    obtain ⟨j, hj, rfl⟩ := List.mem_map.mp hp
    have hj' : j < layout.length := List.mem_range.mp hj
    have hkey : layout.getD j 0 = layout.getD i 0 := by simpa [reorderWrite] using hpd
    have hji : j = i := by
      rw [List.getD_eq_getElem layout 0 hj', List.getD_eq_getElem layout 0 hi] at hkey
      exact hnd.getElem_inj_iff.mp hkey
    subst hji
    simp [reorderWrite]

/-- A permutation layout (`Nodup`, in-range, full length) reaches every
index below `n`. -/
theorem layout_surj (layout : List Nat) (n : Nat) (hlen : layout.length = n)
    (hbound : ∀ x ∈ layout, x < n) (hnd : layout.Nodup) :
    ∀ j, j < n → ∃ i, ∃ hi : i < layout.length, layout[i] = j := by
  intro j hj
  have hsub : layout ⊆ List.range n := fun x hx => List.mem_range.mpr (hbound x hx)
  have hperm : layout.Perm (List.range n) :=
    (hnd.subperm hsub).perm_of_length_le (by rw [List.length_range, hlen])
  have hmem : j ∈ layout := hperm.mem_iff.mpr (List.mem_range.mpr hj)
  exact List.getElem_of_mem hmem

/-!
### Allocation invariants
-/

theorem getLast_not_mem_dropLast (l : List Nat) (h : l.Nodup) (hne : l ≠ []) :
    l.getLast hne ∉ l.dropLast := by
  intro hmem
  have heq := List.dropLast_append_getLast hne
  have hn : (l.dropLast ++ [l.getLast hne]).Nodup := by rwa [heq]
  rw [List.nodup_append] at hn
  exact hn.2.2 hmem (by simp)

/-- The allocation invariant: assigned registers are distinct, drawn from
the pool, and disjoint from what remains of the pool. -/
theorem allocRegs_spec :
    ∀ (n : Nat) (pool : List Nat), pool.Nodup →
      ∀ res, allocRegs n pool = some res →
        res.1.Nodup ∧ res.2.Nodup ∧
        (∀ a ∈ res.1, a ∈ pool) ∧ (∀ a ∈ res.2, a ∈ pool) ∧
        (∀ a ∈ res.1, a ∉ res.2) ∧ res.1.length = n := by
  intro n
  induction n with
  | zero =>
      intro pool hnd res hres
      simp only [allocRegs, Option.some.injEq] at hres
      subst hres
      exact ⟨List.nodup_nil, hnd, by simp, fun a ha => ha, by simp, rfl⟩
  | succ n ih =>
      intro pool hnd res hres
      simp only [allocRegs] at hres
      cases hg : pool.getLast? with
      | none => rw [hg] at hres; exact Option.noConfusion hres
      | some r =>
          rw [hg] at hres
          cases ha : allocRegs n pool.dropLast with
          | none => rw [ha] at hres; exact Option.noConfusion hres
          | some q =>
              obtain ⟨assigned, pool2⟩ := q
              rw [ha] at hres
              simp only [Option.some.injEq] at hres
              subst hres
              have hne : pool ≠ [] := by
                intro h; subst h; simp at hg
              have hr : r = pool.getLast hne := by
                rw [List.getLast?_eq_getLast pool hne] at hg
                exact (Option.some.injEq _ _ ▸ hg).symm
              have hrpool : r ∈ pool := hr ▸ List.getLast_mem hne
              have hrdrop : r ∉ pool.dropLast := hr ▸ getLast_not_mem_dropLast pool hnd hne
              have hdropnd : pool.dropLast.Nodup := hnd.sublist (List.dropLast_sublist pool)
              obtain ⟨ha1, ha2, ha3, ha4, ha5, ha6⟩ := ih pool.dropLast hdropnd _ ha
              refine ⟨?_, ha2, ?_, ?_, ?_, ?_⟩
              · exact List.nodup_cons.mpr ⟨fun hmem => hrdrop (ha3 r hmem), ha1⟩
              · intro a hmem
                rcases List.mem_cons.mp hmem with h | h
                · exact h ▸ hrpool
                · exact (List.dropLast_sublist pool).mem (ha3 a h)
              · intro a hmem
                exact (List.dropLast_sublist pool).mem (ha4 a hmem)
              · intro a hmem
                rcases List.mem_cons.mp hmem with h | h
                · subst h; exact fun hmem2 => hrdrop (ha4 a hmem2)
                · exact ha5 a h
              · simp [ha6]

theorem initGpPool_nodup (ri rc : Nat) : (initGpPool ri rc).Nodup := by
  refine List.Nodup.filter _ ?_
  refine List.Nodup.map_on ?_ (List.nodup_range 16)
  intro i hi j hj h
  have hi2 := List.mem_range.mp hi
  have hj2 := List.mem_range.mp hj
  omega

theorem initGpPool_not_reserved (ri rc : Nat) :
    ∀ x ∈ initGpPool ri rc, x ≠ 4 ∧ x ≠ 5 ∧ x ≠ ri ∧ x ≠ rc := by
  intro x hx
  have h := List.of_mem_filter hx
  simp only [decide_eq_true_eq] at h
  push_neg at h
  exact ⟨h.1, h.2.1, h.2.2.1, h.2.2.2⟩

/-!
### Generic `getD` helpers
-/

theorem getD_map_range {α : Type} (f : Nat → α) (n i : Nat) (h : i < n) (d : α) :
    ((List.range n).map f).getD i d = f i := by
  rw [List.getD_eq_getElem _ d (by simpa using h)]
  simp

theorem getD_append_left {α : Type} (l1 l2 : List α) (i : Nat) (h : i < l1.length) (d : α) :
    (l1 ++ l2).getD i d = l1.getD i d := by
  simp [List.getD, List.getElem?_append_left h]

theorem getD_append_right {α : Type} (l1 l2 : List α) (i : Nat) (h : l1.length ≤ i) (d : α) :
    (l1 ++ l2).getD i d = l2.getD (i - l1.length) d := by
  simp [List.getD, List.getElem?_append_right h]

/-!
### The starved path of `init_data_pointers` in normal form
-/

/-- When every surviving pool member is one of the two ABI registers
(`find_if` fails, line 204), `init_data_pointers` takes the
`last_iter_explicitly` path: every tensor but the last uses the last
tensor's destination register as scratch, and the last tensor is loaded
from `dst_ptrs[i - num_inputs]` with `reg_const_params` as scratch. -/
theorem init_data_pointers_starved (gpPool : List Nat) (ri rc : Nat) (dptr : List Nat)
    (nIn nOut nBuf : Nat)
    (hstarve : ∀ r ∈ gpPool, r = ri ∨ r = rc) (hnp : 1 ≤ nIn + nOut) :
    init_data_pointers gpPool ri rc dptr nIn nOut nBuf =
      some ((List.range nBuf).map (fun i =>
              PtrInit.mk (dptr.getD (nIn + nOut + i) 0) LoadSrc.bufScratch none) ++
            (List.range (nIn + nOut - 1)).map (fun i =>
              PtrInit.mk (dptr.getD i 0)
                (if i < nIn then LoadSrc.srcPtr i else LoadSrc.dstPtr (i - nIn))
                (some (dptr.getD (nIn + nOut - 1) 0))) ++
            [PtrInit.mk (dptr.getD (nIn + nOut - 1) 0)
              (LoadSrc.dstPtr (subUSize (nIn + nOut - 1) nIn))
              (some rc)]) := by
  have hfind : gpPool.find? (fun r => r ≠ ri ∧ r ≠ rc) = none := by
    rw [List.find?_eq_none]
    intro x hx
    rcases hstarve x hx with h | h <;> simp [h]
  have h0 : ¬ (nIn + nOut = 0) := by omega
  unfold init_data_pointers
  rw [hfind]
  simp [h0]

/-!
## Claim theorems
-/

/-- C1, counterexample: the claim asserts a stride of exactly 0 for every
unit dimension including the innermost position, but for shape `[2, 1]`
(element size 4) the innermost dimension has extent 1 and is assigned
stride 1, because line 163 writes `strides[shape.size() - 1] = 1`
unconditionally. -/
theorem claim_C1_counterexample :
    rawStrides [2, 1] 4 = some [4, 1] ∧
    List.getD [2, 1] 1 0 = 1 ∧ List.getD [4, 1] 1 0 ≠ 0 :=
  ⟨rfl, rfl, by decide⟩

/-- C1 (amended): every dimension other than the innermost whose extent
equals 1 is assigned stride exactly 0, regardless of its position and of
neighboring extents; the innermost dimension is assigned stride 1
unconditionally (that entry is later dropped by `strides.pop_back()`). -/
theorem claim_C1_unit_dim_stride_zero (shape : List Nat) (e k : Nat)
    (hne : shape ≠ []) (hk : k < shape.length - 1) (hunit : shape.getD k 0 = 1) :
    ∃ l, rawStrides shape e = some l ∧ l.getD k 0 = 0 ∧
      l.getD (shape.length - 1) 0 = 1 := by
  obtain ⟨l, hl, _, hlast, hform⟩ := rawStrides_spec shape e hne
  refine ⟨l, hl, ?_, hlast⟩
  rw [hform k hk, hunit]
  simp

/-- C1 witness: shape `[3, 1, 5]`, element size 4, middle unit dimension. -/
theorem claim_C1_witness :
    ∃ l, rawStrides [3, 1, 5] 4 = some l ∧ l.getD 1 0 = 0 ∧
      l.getD 2 0 = 1 :=
  claim_C1_unit_dim_stride_zero [3, 1, 5] 4 1 (by decide) (by decide) (by decide)

/-- C2, counterexample: the claim asserts `stride[n-1] = elementSize` and
raw strides `[48, 16, 4]` for shape `[2, 3, 4]` with element size 4, but
line 163 sets the innermost stride to 1 (not the element size), so the
code computes `[48, 16, 1]`. -/
theorem claim_C2_counterexample :
    rawStrides [2, 3, 4] 4 = some [48, 16, 1] ∧
    List.getD [48, 16, 1] 2 0 ≠ 4 ∧ [48, 16, 1] ≠ [48, 16, 4] :=
  ⟨rfl, by decide, by decide⟩

/-- C2 (amended): for every non-empty shape `s[0..n-1]` and element size
`e`, the raw stride vector satisfies `stride[n-1] = 1`, and for
`k ≤ n-2`, with `dim_step` accumulating the product of `s[k+1..n-1]`
(modulo `2^64`), `stride[k] = dim_step * e` when `s[k] ≠ 1` and `0`
otherwise; in particular for shape `[2,3,4]` with element size 4 the raw
strides are `[48, 16, 1]`. -/
theorem claim_C2_raw_stride_formula (shape : List Nat) (e : Nat) (hne : shape ≠ []) :
    ∃ l, rawStrides shape e = some l ∧ l.length = shape.length ∧
      l.getD (shape.length - 1) 0 = 1 ∧
      ∀ k, k < shape.length - 1 →
        l.getD k 0 =
          if shape.getD k 0 ≠ 1 then dimStep shape (k + 1) * e % U64 else 0 :=
  rawStrides_spec shape e hne

/-- C2 witness: the concrete scenario shape `[2, 3, 4]`, element size 4. -/
theorem claim_C2_witness :
    ∃ l, rawStrides [2, 3, 4] 4 = some l ∧ l.length = 3 ∧
      l.getD 2 0 = 1 ∧
      ∀ k, k < 2 →
        l.getD k 0 =
          if List.getD [2, 3, 4] k 0 ≠ 1 then dimStep [2, 3, 4] (k + 1) * 4 % U64 else 0 :=
  claim_C2_raw_stride_formula [2, 3, 4] 4 (by decide)

/-- C3 (confirmed): for a non-empty layout permutation, the reorder
direction depends on the tensor's role — for an input,
`reordered[i] = stride[layout[i]]`; for an output,
`reordered[layout[i]] = stride[i]`. -/
theorem claim_C3_reorder_direction (strides layout : List Nat) (i : Nat)
    (hne : layout ≠ []) (hlen : layout.length = strides.length)
    (hbound : ∀ x ∈ layout, x < strides.length) (hnd : layout.Nodup)
    (hi : i < layout.length) :
    (reorderStrides strides layout true).getD i 0 =
      strides.getD (layout.getD i 0) 0 ∧
    (reorderStrides strides layout false).getD (layout.getD i 0) 0 =
      strides.getD i 0 :=
  ⟨reorder_input_getD strides layout hne hlen i hi,
   reorder_output_getD strides layout hne hbound hnd i hi⟩

/-- C3 witness: strides `[10, 20, 30]`, layout `[1, 2, 0]`, index 0. -/
theorem claim_C3_witness :
    (reorderStrides [10, 20, 30] [1, 2, 0] true).getD 0 0 =
      List.getD [10, 20, 30] (List.getD [1, 2, 0] 0 0) 0 ∧
    (reorderStrides [10, 20, 30] [1, 2, 0] false).getD (List.getD [1, 2, 0] 0 0) 0 =
      List.getD [10, 20, 30] 0 0 :=
  claim_C3_reorder_direction [10, 20, 30] [1, 2, 0] 0 (by decide) (by decide)
    (by decide) (by decide) (by decide)

/-- C4, counterexample: the claim asserts the final stride vector has
length `len(master_shape) - 1` regardless of the tensor's own shape
length, but for a rank-3 tensor against a rank-2 master shape
(`offset_rank = 1`) the insertion count `offset_rank - strides.size()`
underflows as `size_t` and `std::vector::insert` throws: no stride vector
is produced at all. -/
theorem claim_C4_counterexample :
    offset_calculation 1 [2, 3, 4] [] 4 true = none := rfl

/-- C4 (amended): for every tensor whose shape length is at most
`len(master_shape)` (equivalently `shape.length - 1 ≤ offset_rank`), the
final stride vector produced by the offset calculation — after dropping
the innermost entry and left-padding with zeros — has length exactly
`offset_rank = len(master_shape) - 1`. -/
theorem claim_C4_padded_length (offset_rank : Nat) (shape layout : List Nat)
    (e : Nat) (b : Bool) (hne : shape ≠ [])
    (hrank : shape.length - 1 ≤ offset_rank) :
    ∃ v, offset_calculation offset_rank shape layout e b = some v ∧
      v.length = offset_rank := by
  obtain ⟨l, hl, hlen, _, _⟩ := rawStrides_spec shape e hne
  have hdrop : (reorderStrides l layout b).dropLast.length = shape.length - 1 := by
    rw [List.length_dropLast, reorderStrides_length, hlen]
  unfold offset_calculation
  rw [hl]
  simp only [hdrop]
  rw [if_pos hrank]
  refine ⟨_, rfl, ?_⟩
  rw [List.length_append, List.length_replicate, hdrop]
  omega

/-- C4 witness: master shape of rank 6 (`offset_rank = 5`), tensor shape
`[2, 3, 4]`, identity layout, element size 4. -/
theorem claim_C4_witness :
    ∃ v, offset_calculation 5 [2, 3, 4] [] 4 true = some v ∧ v.length = 5 :=
  claim_C4_padded_length 5 [2, 3, 4] [] 4 true (by decide) (by decide)

/-- Indexing into the starved-path pointer-initialization list: entry
`nBuf + i` describes the `i`-th IO tensor. -/
theorem starvedInits_getD (dptr : List Nat) (rc : Nat) (nIn nOut nBuf i : Nat)
    (hi : i < nIn + nOut) :
    ((List.range nBuf).map (fun j =>
        PtrInit.mk (dptr.getD (nIn + nOut + j) 0) LoadSrc.bufScratch none) ++
      (List.range (nIn + nOut - 1)).map (fun j =>
        PtrInit.mk (dptr.getD j 0)
          (if j < nIn then LoadSrc.srcPtr j else LoadSrc.dstPtr (j - nIn))
          (some (dptr.getD (nIn + nOut - 1) 0))) ++
      [PtrInit.mk (dptr.getD (nIn + nOut - 1) 0)
        (LoadSrc.dstPtr (subUSize (nIn + nOut - 1) nIn))
        (some rc)]).getD (nBuf + i) dummyPtrInit =
      (if i < nIn + nOut - 1 then
        PtrInit.mk (dptr.getD i 0)
          (if i < nIn then LoadSrc.srcPtr i else LoadSrc.dstPtr (i - nIn))
          (some (dptr.getD (nIn + nOut - 1) 0))
       else
        PtrInit.mk (dptr.getD (nIn + nOut - 1) 0)
          (LoadSrc.dstPtr (subUSize (nIn + nOut - 1) nIn))
          (some rc)) := by
  by_cases h : i < nIn + nOut - 1
  · rw [if_pos h, getD_append_left _ _ _ (by simp; omega) _,
      getD_append_right _ _ _ (by simp) _]
    simp only [List.length_map, List.length_range, Nat.add_sub_cancel_left]
    rw [getD_map_range _ _ _ h _]
  · rw [if_neg h, getD_append_right _ _ _ (by simp; omega) _]
    have h0 : nBuf + i - ((List.range nBuf).map (fun j =>
        PtrInit.mk (dptr.getD (nIn + nOut + j) 0) LoadSrc.bufScratch none) ++
        (List.range (nIn + nOut - 1)).map (fun j =>
          PtrInit.mk (dptr.getD j 0)
            (if j < nIn then LoadSrc.srcPtr j else LoadSrc.dstPtr (j - nIn))
            (some (dptr.getD (nIn + nOut - 1) 0)))).length = 0 := by
      simp only [List.length_append, List.length_map, List.length_range]
      omega
    rw [h0]
    rfl

/-- C5 (confirmed): when no spare general-purpose register survives
allocation (every remaining pool member is one of the two reserved ABI
registers), pointer initialization still produces an entry for every
tensor: each tensor before the last uses the last tensor's own destination
register as scratch, the final tensor uses the parameter-block register
`reg_const_params` as scratch (after all base pointers have been loaded
from it), and every tensor's scratch register differs from its own
pointer register and from the runtime index-vector register. -/
theorem claim_C5_starved_scratch (gpPool : List Nat) (ri rc : Nat)
    (dptr : List Nat) (nIn nOut nBuf : Nat)
    (hstarve : ∀ r ∈ gpPool, r = ri ∨ r = rc)
    (hnp : 1 ≤ nIn + nOut)
    (hlen : dptr.length = nIn + nOut + nBuf)
    (hnd : dptr.Nodup)
    (hdisj : ∀ r ∈ dptr, r ≠ ri ∧ r ≠ rc)
    (hrirc : ri ≠ rc) :
    ∃ inits, init_data_pointers gpPool ri rc dptr nIn nOut nBuf = some inits ∧
      inits.length = nBuf + (nIn + nOut) ∧
      (∀ i, i < nIn + nOut →
        (inits.getD (nBuf + i) dummyPtrInit).dest = dptr.getD i 0) ∧
      (∀ i, i < nIn + nOut - 1 →
        (inits.getD (nBuf + i) dummyPtrInit).scratch =
          some (dptr.getD (nIn + nOut - 1) 0)) ∧
      (inits.getD (nBuf + (nIn + nOut - 1)) dummyPtrInit).scratch = some rc ∧
      (∀ i s, i < nIn + nOut →
        (inits.getD (nBuf + i) dummyPtrInit).scratch = some s →
          s ≠ (inits.getD (nBuf + i) dummyPtrInit).dest ∧ s ≠ ri) := by
  have hform := init_data_pointers_starved gpPool ri rc dptr nIn nOut nBuf hstarve hnp
  have hNlt : nIn + nOut - 1 < dptr.length := by omega
  have hlastmem : dptr.getD (nIn + nOut - 1) 0 ∈ dptr := by
    rw [List.getD_eq_getElem dptr 0 hNlt]
    exact List.getElem_mem hNlt
  refine ⟨_, hform, ?_, ?_, ?_, ?_, ?_⟩
  · simp only [List.length_append, List.length_map, List.length_range,
      List.length_cons, List.length_nil]
    omega
  · intro i hi
    rw [starvedInits_getD dptr rc nIn nOut nBuf i hi]
    by_cases h : i < nIn + nOut - 1
    · rw [if_pos h]
    · rw [if_neg h]
      have hieq : i = nIn + nOut - 1 := by omega
      rw [hieq]
  · intro i hi
    rw [starvedInits_getD dptr rc nIn nOut nBuf i (by omega)]
    rw [if_pos hi]
  · rw [starvedInits_getD dptr rc nIn nOut nBuf (nIn + nOut - 1) (by omega)]
    rw [if_neg (by omega)]
  · intro i s hi hs
    rw [starvedInits_getD dptr rc nIn nOut nBuf i hi] at hs ⊢
    by_cases h : i < nIn + nOut - 1
    · rw [if_pos h] at hs ⊢
      have hseq : s = dptr.getD (nIn + nOut - 1) 0 := by
        simpa using hs.symm
      subst hseq
      refine ⟨?_, (hdisj _ hlastmem).1⟩
      show dptr.getD (nIn + nOut - 1) 0 ≠ dptr.getD i 0
      rw [List.getD_eq_getElem dptr 0 hNlt, List.getD_eq_getElem dptr 0 (by omega)]
      intro he
      have := hnd.getElem_inj_iff.mp he
      omega
    · rw [if_neg h] at hs ⊢
      have hseq : s = rc := by simpa using hs.symm
      subst hseq
      exact ⟨fun he => (hdisj _ hlastmem).2 he.symm, Ne.symm hrirc⟩

/-- C5 witness: two IO tensors on registers 0 and 1, empty pool, ABI
registers 7 and 6. -/
theorem claim_C5_witness :
    ∃ inits, init_data_pointers [] 7 6 [0, 1] 1 1 0 = some inits ∧
      inits.length = 0 + (1 + 1) ∧
      (∀ i, i < 1 + 1 →
        (inits.getD (0 + i) dummyPtrInit).dest = List.getD [0, 1] i 0) ∧
      (∀ i, i < 1 + 1 - 1 →
        (inits.getD (0 + i) dummyPtrInit).scratch =
          some (List.getD [0, 1] (1 + 1 - 1) 0)) ∧
      (inits.getD (0 + (1 + 1 - 1)) dummyPtrInit).scratch = some 6 ∧
      (∀ i s, i < 1 + 1 →
        (inits.getD (0 + i) dummyPtrInit).scratch = some s →
          s ≠ (inits.getD (0 + i) dummyPtrInit).dest ∧ s ≠ 7) :=
  claim_C5_starved_scratch [] 7 6 [0, 1] 1 1 0 (by decide) (by decide)
    (by decide) (by decide) (by decide) (by decide)

/-- C9 (confirmed): in the starvation fallback the final tensor's base
pointer is always loaded from the output-pointer array at `size_t` index
`i - num_inputs`; when `num_outputs ≥ 1` this index is `num_outputs - 1`
(in bounds, and the last IO tensor is an output), but when the IO tensors
are all inputs the subtraction underflows to `2^64 - 1` — an index far
outside the output-pointer array — while the tensor being initialized is
in fact an input. -/
theorem claim_C9_starved_last_load (gpPool : List Nat) (ri rc : Nat)
    (dptr : List Nat) (nIn nOut nBuf : Nat)
    (hstarve : ∀ r ∈ gpPool, r = ri ∨ r = rc)
    (hnp : 1 ≤ nIn + nOut) (hsmall : nOut < U64) :
    ∃ inits, init_data_pointers gpPool ri rc dptr nIn nOut nBuf = some inits ∧
      (inits.getD (nBuf + (nIn + nOut - 1)) dummyPtrInit).src =
        LoadSrc.dstPtr (subUSize (nIn + nOut - 1) nIn) ∧
      (1 ≤ nOut →
        subUSize (nIn + nOut - 1) nIn = nOut - 1 ∧ nOut - 1 < nOut ∧
        nIn ≤ nIn + nOut - 1) ∧
      (nOut = 0 →
        subUSize (nIn + nOut - 1) nIn = U64 - 1 ∧
        ¬ subUSize (nIn + nOut - 1) nIn < nOut ∧
        nIn + nOut - 1 < nIn) := by
  have hform := init_data_pointers_starved gpPool ri rc dptr nIn nOut nBuf hstarve hnp
  refine ⟨_, hform, ?_, ?_, ?_⟩
  · rw [starvedInits_getD dptr rc nIn nOut nBuf (nIn + nOut - 1) (by omega)]
    rw [if_neg (by omega)]
  · intro hout
    have hle : nIn ≤ nIn + nOut - 1 := by omega
    have heq : nIn + nOut - 1 - nIn = nOut - 1 := by omega
    have hlt : nIn + nOut - 1 - nIn < U64 := by
      rw [heq]
      exact Nat.lt_of_le_of_lt (Nat.sub_le _ _) hsmall
    refine ⟨?_, by omega, hle⟩
    rw [subUSize_of_le _ _ hle hlt, heq]
  · intro hout
    have hpred : ∀ m, m + 1 = nIn → subUSize m nIn = U64 - 1 := by
      intro m hm
      rw [← hm]
      exact subUSize_pred m
    exact ⟨hpred _ (by omega), hout ▸ Nat.not_lt_zero _, by omega⟩

/-- C9 witness: a starved kernel whose two IO tensors are both inputs. -/
theorem claim_C9_witness :
    ∃ inits, init_data_pointers [] 7 6 [0, 1] 2 0 0 = some inits ∧
      (inits.getD (0 + (2 + 0 - 1)) dummyPtrInit).src =
        LoadSrc.dstPtr (subUSize (2 + 0 - 1) 2) ∧
      (1 ≤ 0 →
        subUSize (2 + 0 - 1) 2 = 0 - 1 ∧ 0 - 1 < 0 ∧ 2 ≤ 2 + 0 - 1) ∧
      (0 = 0 →
        subUSize (2 + 0 - 1) 2 = U64 - 1 ∧
        ¬ subUSize (2 + 0 - 1) 2 < 0 ∧
        2 + 0 - 1 < 2) :=
  claim_C9_starved_last_load [] 7 6 [0, 1] 2 0 0 (by decide) (by decide)
    (by decide)

/-- C7, counterexample: when the external input list is nonempty and the
register count also mismatches, `validate_arguments` fails with the
argument-arity error, not the allocation-consistency error — the in/out
checks run first (lines 138-139), so "fails with an allocation-consistency
error iff the count differs" does not hold as a biconditional. -/
theorem claim_C7_counterexample :
    validate_arguments [0] [] 1 0 0 5 = some ValidateErr.arity ∧
    (5 : Nat) ≠ 1 + 0 + 0 ∧
    validate_arguments [0] [] 1 0 0 5 ≠ some ValidateErr.alloc :=
  ⟨rfl, by omega, fun h => ValidateErr.noConfusion (Option.some.inj h)⟩

/-- C7 (amended): the emission entry point fails with the argument-arity
error iff the external input or output argument list is nonempty; it fails
with the allocation-consistency error iff both argument lists are empty
and the allocated data-pointer register count differs from
`num_inputs + num_outputs + num_unique_buffers`; it proceeds to emission
iff both lists are empty and the counts agree. -/
theorem claim_C7_validate_characterization (inArgs outArgs : List Nat)
    (nIn nOut nBuf len : Nat) :
    (validate_arguments inArgs outArgs nIn nOut nBuf len = some ValidateErr.arity ↔
      inArgs ≠ [] ∨ outArgs ≠ []) ∧
    (validate_arguments inArgs outArgs nIn nOut nBuf len = some ValidateErr.alloc ↔
      inArgs = [] ∧ outArgs = [] ∧ len ≠ nIn + nOut + nBuf) ∧
    (validate_arguments inArgs outArgs nIn nOut nBuf len = none ↔
      inArgs = [] ∧ outArgs = [] ∧ len = nIn + nOut + nBuf) := by
  unfold validate_arguments
  by_cases h1 : inArgs = []
  · by_cases h2 : outArgs = []
    · by_cases h3 : len = nIn + nOut + nBuf <;>
        simp [h1, h2, h3, List.isEmpty_iff]
    · simp [h1, h2, List.isEmpty_iff]
  · simp [h1, List.isEmpty_iff]

/-- C7 witness: empty argument lists and a consistent register count pass
validation. -/
theorem claim_C7_witness :
    validate_arguments [] [] 1 1 1 3 = none :=
  (claim_C7_validate_characterization [] [] 1 1 1 3).2.2.mpr ⟨rfl, rfl, rfl⟩

/-- C8, counterexample: for the 3-cycle layout `[1, 2, 0]` (whose inverse
permutation is `[2, 0, 1]`, as the six composition equations verify),
applying the input-direction reorder with the layout and then the
output-direction reorder with the inverse permutation does not recover the
original strides `[10, 20, 30]`. -/
theorem claim_C8_counterexample :
    List.getD [1, 2, 0] (List.getD [2, 0, 1] 0 0) 0 = 0 ∧
    List.getD [1, 2, 0] (List.getD [2, 0, 1] 1 0) 0 = 1 ∧
    List.getD [1, 2, 0] (List.getD [2, 0, 1] 2 0) 0 = 2 ∧
    List.getD [2, 0, 1] (List.getD [1, 2, 0] 0 0) 0 = 0 ∧
    List.getD [2, 0, 1] (List.getD [1, 2, 0] 1 0) 0 = 1 ∧
    List.getD [2, 0, 1] (List.getD [1, 2, 0] 2 0) 0 = 2 ∧
    ([1, 2, 0] : List Nat) ≠ [0, 1, 2] ∧
    reorderStrides (reorderStrides [10, 20, 30] [1, 2, 0] true) [2, 0, 1] false ≠
      [10, 20, 30] :=
  ⟨rfl, rfl, rfl, rfl, rfl, rfl, by decide, by decide⟩

/-- C8 (amended): applying the input-direction reorder and then the
output-direction reorder with the *same* layout recovers the original
stride vector — the output direction is itself the inverse mapping of the
input direction. -/
theorem claim_C8_roundtrip (strides layout : List Nat)
    (hne : layout ≠ []) (hlen : layout.length = strides.length)
    (hbound : ∀ x ∈ layout, x < strides.length) (hnd : layout.Nodup) :
    reorderStrides (reorderStrides strides layout true) layout false = strides := by
  have hrlen : (reorderStrides strides layout true).length = strides.length :=
    reorderStrides_length strides layout true
  have houtlen :
      (reorderStrides (reorderStrides strides layout true) layout false).length =
        strides.length := by
    rw [reorderStrides_length, hrlen]
  refine List.ext_getElem houtlen ?_
  intro j hj1 hj2
  obtain ⟨i, hi, hij⟩ := layout_surj layout strides.length hlen hbound hnd j hj2
  have hgd : layout.getD i 0 = j := by rw [List.getD_eq_getElem layout 0 hi, hij]
  have h1 :
      (reorderStrides (reorderStrides strides layout true) layout false).getD
          (layout.getD i 0) 0 =
        (reorderStrides strides layout true).getD i 0 :=
    reorder_output_getD _ layout hne (by rw [hrlen]; exact hbound) hnd i hi
  have h2 : (reorderStrides strides layout true).getD i 0 =
      strides.getD (layout.getD i 0) 0 :=
    reorder_input_getD strides layout hne hlen i hi
  rw [← List.getD_eq_getElem _ 0 hj1, ← List.getD_eq_getElem _ 0 hj2, ← hgd,
    h1, h2]

/-- C8 witness: strides `[10, 20, 30]` and the 3-cycle layout `[1, 2, 0]`. -/
theorem claim_C8_witness :
    reorderStrides (reorderStrides [10, 20, 30] [1, 2, 0] true) [1, 2, 0] false =
      [10, 20, 30] :=
  claim_C8_roundtrip [10, 20, 30] [1, 2, 0] (by decide) (by decide)
    (by decide) (by decide)

/-- C10 (confirmed): every IO tensor must have rank at least 1 — on an
empty layout the constructor's `max_element` dereference is undefined
(line 71), and on an empty shape the stride write at `shape.size() - 1`
underflows (line 163); both computations are well-defined exactly under
the unstated rank-one precondition. -/
theorem claim_C10_rank_precondition (shape layout : List Nat) (e : Nat) :
    rawStrides [] e = none ∧
    maxElement [] = none ∧
    validateDescriptor [] [] = DescCheck.undefinedEmpty ∧
    (shape ≠ [] → ∃ l, rawStrides shape e = some l) ∧
    (layout ≠ [] → ∃ m, maxElement layout = some m) := by
  refine ⟨rfl, rfl, rfl, ?_, ?_⟩
  · intro h
    obtain ⟨l, hl, _⟩ := rawStrides_spec shape e h
    exact ⟨l, hl⟩
  · intro h
    cases layout with
    | nil => exact absurd rfl h
    | cons x xs => exact ⟨_, rfl⟩

/-- C10 witness: shape `[2]` and layout `[0]` are well-defined. -/
theorem claim_C10_witness :
    (∃ l, rawStrides [2] 4 = some l) ∧ ∃ m, maxElement [0] = some m :=
  ⟨(claim_C10_rank_precondition [2] [0] 4).2.2.2.1 (by decide),
   (claim_C10_rank_precondition [2] [0] 4).2.2.2.2 (by decide)⟩

end JitKernelEmitter
